import Mathlib

/-!
# Verification of the Musicy step-sequencer core (src/app.js)

A shallow embedding of the audio scheduling core of `src/app.js`:
the lookahead scheduler, transport start/stop, tone synthesis dispatch,
effect toggling, pattern placement/drag, and JSON export.

Modelling conventions:
* JS numbers are modelled as `ℚ` (all arithmetic the claims touch is
  exact: +, -, *, /); decimal literals such as `0.1` are exact rationals.
* `Math.pow`, `Math.random` and the audio sample rate are environment
  primitives: they are passed in as explicit parameters (`jsPow`,
  noise streams, `rate`), so every definition stays computable.
* Mutable module-level state (`tempo`, `events`, `currentStep`, ...)
  becomes one record `AppState`; each JS function becomes a state
  transformer.  Side effects on the audio pipeline and the visual sink
  are recorded as traces (`dispatched`, `visuals`) in the state.
* `audioCtx === null` is modelled by `AppState.audioCtx = none`;
  dereferencing the null context (as `schedulerLoop` does via
  `audioCtx.currentTime`) is modelled by `Except` with a `TypeError`.
-/

namespace Musicy

/-- JS runtime errors that the embedded code can raise. -/
inductive JsError where
  | typeError
deriving Repr, DecidableEq

/-- `Math.round`: round half toward positive infinity. -/
def jsRound (q : ℚ) : ℤ := ⌊q + 1/2⌋

/-- JS `%` remainder: truncated division remainder (sign of the dividend). -/
def jsMod (a b : ℚ) : ℚ := a - b * ((if a / b ≥ 0 then ⌊a / b⌋ else ⌈a / b⌉) : ℤ)

/-! ## CONFIG (src/app.js lines 15-23) -/

namespace CONFIG

/-- seconds to schedule ahead -/
def LOOKAHEAD : ℚ := 0.1

/-- ms timer to schedule -/
def SCHEDULE_INTERVAL : ℚ := 25

def DEFAULT_TEMPO : ℚ := 110

def LOOP_BEATS : ℕ := 4

/-- subdivisions per beat (16 steps default) -/
def SUBDIV : ℕ := 4

def PALETTE : List String := ["#8b5cf6", "#06b6d4", "#fb7185", "#22c55e"]

end CONFIG

/-! ## Data model -/

/-- A placed sequencer event, as built literally in `placeEventAt`
(src/app.js lines 339-348). -/
structure Event where
  id : String
  step : ℕ
  freq : ℚ
  baseFreq : ℚ
  gain : ℚ
  duration : ℚ
  color : String
  type : String
deriving Repr, DecidableEq

/-- synthDefaults (src/app.js lines 52-56). -/
def synthDefaults : String × ℚ × ℚ := ("sine", 220, 0.18)

/-- One gain-automation call scheduled on the envelope node in
`playEventAt`: `setValueAtTime` or `exponentialRampToValueAtTime`,
recorded as (target value, audio-clock time). -/
inductive EnvCmd where
  | setValue (v : ℚ) (t : ℚ)
  | expRamp (v : ℚ) (t : ℚ)
deriving Repr, DecidableEq

/-- The transient per-note signal chain that one `playEventAt` call
commits to the audio pipeline (src/app.js lines 159-191). -/
structure Note where
  waveType : String
  freq : ℚ
  /-- lowpass cutoff `800 + ev.freq * 0.6` -/
  filterCutoff : ℚ
  /-- the envelope automation, in call order -/
  envelope : List EnvCmd
  /-- `osc.start(start)` -/
  oscStart : ℚ
  /-- `osc.stop(start + dur + 0.02)` -/
  oscStop : ℚ
  /-- `env.connect(globalDelay)` happened (latched at dispatch) -/
  routeDelay : Bool
  /-- `env.connect(globalReverb)` happened (latched at dispatch) -/
  routeReverb : Bool
deriving Repr, DecidableEq

/-- The static effect node graph built once by ` ensureAudio`
(src/app.js lines 115-142): master gain, delay line and convolution
reverb with their fixed gains, and the generated impulse response. -/
structure AudioGraph where
  masterGain : ℚ
  delayTime : ℚ
  delayGain : ℚ
  reverbGain : ℚ
  impulseL : List ℚ
  impulseR : List ℚ
deriving Repr, DecidableEq

/-- The whole mutable module state of src/app.js that the core logic
touches, plus the `dispatched`/`visuals` effect traces. -/
structure AppState where
  /-- `audioCtx` (none = null, not yet initialized); the payload is the
  effect node graph built by ` ensureAudio`. -/
  audioCtx : Option AudioGraph
  tempo : ℚ
  beatLength : ℚ
  steps : ℕ
  loopStartTime : ℚ
  currentStep : ℕ
  nextStepTime : ℚ
  events : List Event
  /-- `schedulerTimer !== null`: the polling interval is active -/
  schedulerTimer : Bool
  isDelayOn : Bool
  isReverbOn : Bool
  /-- trace of notes committed to the audio pipeline, in dispatch order -/
  dispatched : List Note
  /-- trace of `triggerVisualEvent(ev, latency)` notifications -/
  visuals : List (Event × ℚ)
  pointerX : ℚ
  pointerY : ℚ
  pointerDown : Bool
  /-- id of `draggingEvent` (the code only ever reads its `.id`) -/
  draggingId : Option String
  lastPlacedEventId : Option String
  delayLabel : String
  reverbLabel : String
deriving Repr, DecidableEq

/-! ## Audio setup (src/app.js lines 115-156) -/

/-- `createImpulseResponse(context, duration, decay)`, one channel:
`channel[j] = (Math.random()*2-1) * Math.pow(1 - j/length, decay)`.
The random stream `noise` and the context sample rate are environment
inputs; `jsPow` is `Math.pow`. -/
def impulseChannel (jsPow : ℚ → ℚ → ℚ) (noise : ℕ → ℚ) (rate : ℕ)
    (duration decay : ℚ) : List ℚ :=
  let length := (⌊(rate : ℚ) * duration⌋).toNat
  (List.range length).map fun j =>
    (noise j * 2 - 1) * jsPow (1 - (j : ℚ) / (length : ℚ)) decay

/-- `createImpulseResponse` builds a 2-channel buffer; called with
duration 1.5 and decay 2.0. -/
def createImpulseResponse (jsPow : ℚ → ℚ → ℚ) (noise : ℕ → ℕ → ℚ)
    (rate : ℕ) (duration decay : ℚ) : List ℚ × List ℚ :=
  (impulseChannel jsPow (noise 0) rate duration decay,
   impulseChannel jsPow (noise 1) rate duration decay)

/-- ` ensureAudio()` (src/app.js lines 115-142): if the context exists do
nothing, else build it with master 0.9, delay 0.18s into gain 0.22,
convolver with impulse `createImpulseResponse(ctx, 1.5, 2.0)` into gain
0.15, all wired to master once. -/
def ensureAudio (jsPow : ℚ → ℚ → ℚ) (noise : ℕ → ℕ → ℚ) (rate : ℕ)
    (st : AppState) : AppState :=
  match st.audioCtx with
  | some _ => st
  | none =>
    let impulse := createImpulseResponse jsPow noise rate 1.5 2.0
    let graph : AudioGraph :=
      { masterGain := 0.9
        delayTime := 0.18
        delayGain := 0.22
        reverbGain := 0.15
        impulseL := impulse.1
        impulseR := impulse.2 }
    { st with audioCtx := some graph }

/-! ## Tone synthesis (src/app.js lines 159-191) -/

/-- The note chain `playEventAt(ev, t)` builds when the context exists:
oscillator (type `ev.type || 'sine'`, frequency `ev.freq`), lowpass at
`800 + ev.freq*0.6`, envelope `0.0001 @ t` → ramp `ev.gain || 0.8 @
t+0.01` → ramp `0.0001 @ t+dur` with `dur = ev.duration || 0.18`, osc
running on `[t, t+dur+0.02]`, routed into the delay/reverb sends iff the
flags are on at call time. -/
def mkNote (delayOn reverbOn : Bool) (ev : Event) (t : ℚ) : Note :=
  let dur := if ev.duration = 0 then 0.18 else ev.duration
  { waveType := if ev.type = "" then "sine" else ev.type
    freq := ev.freq
    filterCutoff := 800 + ev.freq * 0.6
    envelope :=
      [EnvCmd.setValue 0.0001 t,
       EnvCmd.expRamp (if ev.gain = 0 then 0.8 else ev.gain) (t + 0.01),
       EnvCmd.expRamp 0.0001 (t + dur)]
    oscStart := t
    oscStop := t + dur + 0.02
    routeDelay := delayOn
    routeReverb := reverbOn }

/-- `playEventAt(ev, t)` (src/app.js lines 159-191): a no-op when
`audioCtx` is null, otherwise commits one note chain to the pipeline. -/
def playEventAt (ev : Event) (t : ℚ) (st : AppState) : AppState :=
  match st.audioCtx with
  | none => st
  | some _ =>
    { st with dispatched :=
        st.dispatched ++ [mkNote st.isDelayOn st.isReverbOn ev t] }

/-- `triggerVisualEvent(ev, latency)` (src/app.js line 452): notify the
visual sink; pure rendering, recorded as a trace entry. -/
def triggerVisualEvent (ev : Event) (latency : ℚ) (st : AppState) : AppState :=
  { st with visuals := st.visuals ++ [(ev, latency)] }

/-! ## Scheduler (src/app.js lines 193-228) -/

/-- The `for(const ev of stepEvents)` dispatch loop inside
`schedulerLoop` (src/app.js lines 215-219): for each event, commit the
note at time `tm` and notify the visual sink with latency `lat`. -/
def fireStep (lat tm : ℚ) (st : AppState) (l : List Event) : AppState :=
  l.foldl (fun s ev => triggerVisualEvent ev lat (playEventAt ev tm s)) st

/-- One iteration of the while-loop body in `schedulerLoop`
(src/app.js lines 213-226): dispatch every event on `currentStep` at
`nextStepTime` (visual latency `nextStepTime - now`), advance
`nextStepTime` by `(60/tempo)/CONFIG.SUBDIV`, step `currentStep` modulo
`steps`, and refresh `loopStartTime` on wrap to 0. -/
def tickStep (now : ℚ) (st : AppState) : AppState :=
  let stepEvents := st.events.filter fun e => e.step == st.currentStep
  let st1 := fireStep (st.nextStepTime - now) st.nextStepTime st stepEvents
  let st2 := { st1 with nextStepTime := st1.nextStepTime + (60 / st1.tempo) / (CONFIG.SUBDIV : ℚ) }
  let st3 := { st2 with currentStep := (st2.currentStep + 1) % st2.steps }
  if st3.currentStep = 0 then { st3 with loopStartTime := st3.nextStepTime } else st3

/-- The `while(nextStepTime < now + CONFIG.LOOKAHEAD)` loop of
`schedulerLoop`, with explicit fuel (the JS loop terminates whenever
`(60/tempo)/SUBDIV > 0`; any sufficient fuel gives the same result). -/
def schedulerLoopAux (now : ℚ) : ℕ → AppState → AppState
  | 0, st => st
  | fuel + 1, st =>
    if st.nextStepTime < now + CONFIG.LOOKAHEAD then
      schedulerLoopAux now fuel (tickStep now st)
    else st

/-- `schedulerLoop()` (src/app.js lines 209-228): reads
`audioCtx.currentTime` with no null guard — on a null context this
dereference throws a TypeError — then runs the lookahead while-loop.
`now` is the clock reading the environment would deliver. -/
def schedulerLoop (now : ℚ) (fuel : ℕ) (st : AppState) :
    Except JsError AppState :=
  match st.audioCtx with
  | none => Except.error JsError.typeError
  | some _ => Except.ok (schedulerLoopAux now fuel st)

/-- `startScheduler()` (src/app.js lines 195-203): bail out if the timer
is already set; ensure audio; set `loopStartTime = currentTime + 0.1`,
`nextStepTime = loopStartTime`, `currentStep = 0`; start the interval.
`clock` is `audioCtx.currentTime` right after initialization. -/
def startScheduler (jsPow : ℚ → ℚ → ℚ) (noise : ℕ → ℕ → ℚ) (rate : ℕ)
    (clock : ℚ) (st : AppState) : AppState :=
  if st.schedulerTimer then st
  else
    let st := ensureAudio jsPow noise rate st
    { st with
        loopStartTime := clock + 0.1
        nextStepTime := clock + 0.1
        currentStep := 0
        schedulerTimer := true }

/-- `stopScheduler()` (src/app.js lines 205-207): clear the interval if
set; all sequencer fields are left untouched. -/
def stopScheduler (st : AppState) : AppState :=
  if st.schedulerTimer then { st with schedulerTimer := false } else st

/-! ## Interaction layer (src/app.js lines 83-87, 281-355, 573-585) -/

/-- The tempo slider handler (src/app.js lines 83-87): store the parsed
integer and refresh `beatLength = 60/tempo`. -/
def setTempo (T : ℤ) (st : AppState) : AppState :=
  { st with tempo := (T : ℚ), beatLength := 60 / (T : ℚ) }

/-- `setDelay(on)` (src/app.js lines 576-580): flip the flag and the
button label; no node-graph plumbing. -/
def setDelay (b : Bool) (st : AppState) : AppState :=
  { st with
      isDelayOn := b
      delayLabel := "Delay: " ++ (if b then "on" else "off") }

/-- `setReverb(on)` (src/app.js lines 582-585). -/
def setReverb (b : Bool) (st : AppState) : AppState :=
  { st with
      isReverbOn := b
      reverbLabel := "Reverb: " ++ (if b then "on" else "off") }

/-- `toggleDelay()` (src/app.js line 575). -/
def toggleDelay (st : AppState) : AppState := setDelay (!st.isDelayOn) st

/-- `toggleReverb()` (src/app.js line 581). -/
def toggleReverb (st : AppState) : AppState := setReverb (!st.isReverbOn) st

/-- `midiToFreq(m)` (src/app.js lines 376-378):
`440 * Math.pow(2, (m-69)/12)`. -/
def midiToFreq (jsPow : ℚ → ℚ → ℚ) (m : ℤ) : ℚ :=
  440 * jsPow 2 (((m : ℚ) - 69) / 12)

/-- JS `Math.min(Math.max(q, 0), 1)` clamp used by `onPointerMove`. -/
def clamp01 (q : ℚ) : ℚ := min (max q 0) 1

/-- Mutate the first event satisfying `p` (JS `events.find` followed by
in-place field assignment). -/
def updateFirst (p : Event → Bool) (f : Event → Event) : List Event → List Event
  | [] => []
  | e :: es => if p e then f e :: es else e :: updateFirst p f es

/-- `onPointerMove(e)` (src/app.js lines 281-298): record the pointer,
and while dragging map vertical position to gain
(`0.2 + (1 - clamp(y)) * 0.8`) and horizontal position to pitch
(`baseFreq * Math.pow(2, (clamp(x)-0.5)*2)`), mutating only the dragged
event found by id. `nx`/`ny` are the rect-normalized coordinates. -/
def onPointerMove (jsPow : ℚ → ℚ → ℚ) (nx ny : ℚ) (st : AppState) : AppState :=
  let st := { st with pointerX := nx, pointerY := ny }
  match st.draggingId with
  | none => st
  | some did =>
    if st.pointerDown then
      let vol := 1 - clamp01 ny
      let pan := clamp01 nx
      let events2 := updateFirst (fun x => x.id == did)
        (fun ev => { ev with
            gain := 0.2 + vol * 0.8
            freq := ev.baseFreq * jsPow 2 ((pan - 0.5) * 2) })
        st.events
      { st with events := events2 }
    else st

/-- `onPointerUp(e)` (src/app.js lines 300-303). -/
def onPointerUp (st : AppState) : AppState :=
  { st with pointerDown := false, draggingId := none }

/-- `placeEventAt(nx, ny)` (src/app.js lines 329-355): ensure audio,
compute the (unused) loop-position quantization, place a new event on
step `(currentStep + 1) % steps` with pitch from the vertical pointer
coordinate via `midiToFreq(48 + round((1-ny)*24))`, gain 0.6, duration
0.18, sine shape, then give immediate audible and visual feedback.
Environment inputs: `now` for the `audioCtx.currentTime` reads, `rid`
for the random id suffix, `cidx` for the random palette index. -/
def placeEventAt (jsPow : ℚ → ℚ → ℚ) (noise : ℕ → ℕ → ℚ) (rate : ℕ)
    (now : ℚ) (rid : String) (cidx : ℕ) (nx ny : ℚ) (st : AppState) : AppState :=
  let st := ensureAudio jsPow noise rate st
  let _loopPos := jsMod (now - st.loopStartTime)
      ((st.steps : ℚ) * (60 / st.tempo) / (CONFIG.SUBDIV : ℚ))
  let stepIndex := (st.currentStep + 1) % st.steps
  let baseFreq := midiToFreq jsPow (48 + jsRound ((1 - ny) * 24))
  let ev : Event :=
    { id := "e" ++ rid
      step := stepIndex
      freq := baseFreq
      baseFreq := baseFreq
      gain := 0.6
      duration := 0.18
      color := (CONFIG.PALETTE.get? (cidx % CONFIG.PALETTE.length)).getD ""
      type := "sine" }
  let st := { st with events := st.events ++ [ev], lastPlacedEventId := some ev.id }
  let st := playEventAt { ev with gain := ev.gain } (now + 0.005) st
  triggerVisualEvent ev 0 st

/-! ## Export (src/app.js lines 588-602) -/

/-- One exported event: exactly the persisted fields of
`exportPattern`; `id` and `baseFreq` have no counterpart here. -/
structure ExportEvent where
  step : ℕ
  freq : ℚ
  gain : ℚ
  duration : ℚ
  color : String
  type : String
deriving Repr, DecidableEq

/-- The exported object `{tempo, steps, events}`. -/
structure ExportSnapshot where
  tempo : ℚ
  steps : ℕ
  events : List ExportEvent
deriving Repr, DecidableEq

/-- `exportPattern()` (src/app.js lines 588-602): build the read-only
snapshot (the remainder of the JS function only serializes it to a blob
and clicks a download link; it writes no sequencer state). -/
def exportPattern (st : AppState) : ExportSnapshot :=
  { tempo := st.tempo
    steps := st.steps
    events := st.events.map fun e =>
      { step := e.step, freq := e.freq, gain := e.gain
        duration := e.duration, color := e.color, type := e.type } }

/-! ## Operations

The state-mutating entry points reachable from the UI, for lifetime
invariants quantified over "every operation".  `onPointerDown` is the
composition of a drag-target pick (`pickEventNear`, whose outcome is
the environment input of `dragPick`) with either `placeEventAt` or the
start gesture, so it is covered by these constructors. -/
inductive Op where
  | place (now : ℚ) (rid : String) (cidx : ℕ) (nx ny : ℚ)
  | move (nx ny : ℚ)
  | dragPick (target : Option String) (down : Bool)
  | pointerUp
  | tempoChange (T : ℤ)
  | delaySet (b : Bool)
  | reverbSet (b : Bool)
  | start (clock : ℚ)
  | stop
  | tick (now : ℚ) (fuel : ℕ)

/-- Apply one operation to the state.  A `tick` whose dereference of the
null audio context throws leaves the state unchanged (the exception
fires on the first line of `schedulerLoop`, before any mutation). -/
def applyOp (jsPow : ℚ → ℚ → ℚ) (noise : ℕ → ℕ → ℚ) (rate : ℕ)
    (op : Op) (st : AppState) : AppState :=
  match op with
  | Op.place now rid cidx nx ny => placeEventAt jsPow noise rate now rid cidx nx ny st
  | Op.move nx ny => onPointerMove jsPow nx ny st
  | Op.dragPick target down => { st with draggingId := target, pointerDown := down }
  | Op.pointerUp => onPointerUp st
  | Op.tempoChange T => setTempo T st
  | Op.delaySet b => setDelay b st
  | Op.reverbSet b => setReverb b st
  | Op.start clock => startScheduler jsPow noise rate clock st
  | Op.stop => stopScheduler st
  | Op.tick now fuel =>
    match schedulerLoop now fuel st with
    | Except.ok st2 => st2
    | Except.error _ => st

/-! ## Concrete states for witnesses -/

/-- A concrete effect graph as ` ensureAudio` would build it (empty
impulse, i.e. sample rate 0). -/
def graph0 : AudioGraph :=
  { masterGain := 0.9, delayTime := 0.18, delayGain := 0.22
    reverbGain := 0.15, impulseL := [], impulseR := [] }

/-- The module state right after page load (src/app.js lines 44-74):
no audio context, default tempo, 16 steps, empty pattern. -/
def st0 : AppState :=
  { audioCtx := none
    tempo := CONFIG.DEFAULT_TEMPO
    beatLength := 60 / CONFIG.DEFAULT_TEMPO
    steps := CONFIG.LOOP_BEATS * CONFIG.SUBDIV
    loopStartTime := 0
    currentStep := 0
    nextStepTime := 0
    events := []
    schedulerTimer := false
    isDelayOn := false
    isReverbOn := false
    dispatched := []
    visuals := []
    pointerX := 0
    pointerY := 0
    pointerDown := false
    draggingId := none
    lastPlacedEventId := none
    delayLabel := "Delay: off"
    reverbLabel := "Reverb: off" }

/-- A sample placed event sitting on step 0. -/
def evA : Event :=
  { id := "ea1", step := 0, freq := 220, baseFreq := 220
    gain := 3/5, duration := 9/50, color := "#8b5cf6", type := "sine" }

/-- A running transport with one event, mid-loop. -/
def stRun : AppState :=
  { st0 with audioCtx := some graph0, schedulerTimer := true
             tempo := 120, beatLength := 60 / 120
             nextStepTime := 1/20, events := [evA] }

/-- A concrete stand-in for the `Math.pow` primitive. -/
def pw1 : ℚ → ℚ → ℚ := fun _ _ => 1

/-- A concrete stand-in for the `Math.random` noise streams. -/
def ns1 : ℕ → ℕ → ℚ := fun _ _ => 0

/-- The fields of an event that no operation may ever change: identity,
grid position, pitch anchor, duration, display tag and wave shape (only
`freq` and `gain` are drag-mutable). -/
def persists (e e2 : Event) : Prop :=
  e2.id = e.id ∧ e2.step = e.step ∧ e2.baseFreq = e.baseFreq ∧
  e2.duration = e.duration ∧ e2.color = e.color ∧ e2.type = e.type

/-! ## Helper lemmas -/

/-- `playEventAt` only ever appends to the dispatch trace. -/
theorem playEventAt_eq (ev : Event) (t : ℚ) (st : AppState) :
    playEventAt ev t st =
      { st with dispatched := st.dispatched ++
          (match st.audioCtx with
           | some _ => [mkNote st.isDelayOn st.isReverbOn ev t]
           | none => []) } := by
  cases h : st.audioCtx <;> simp [playEventAt, h] <;> rw [← h]

/-- The per-step dispatch loop only appends to the two effect traces. -/
theorem fireStep_eq (lat tm : ℚ) (l : List Event) (st : AppState) :
    fireStep lat tm st l =
      { st with
          dispatched := st.dispatched ++
            (match st.audioCtx with
             | some _ => l.map fun e => mkNote st.isDelayOn st.isReverbOn e tm
             | none => [])
          visuals := st.visuals ++ l.map fun e => (e, lat) } := by
  induction l generalizing st with
  | nil => cases h : st.audioCtx <;> simp [fireStep, h] <;> rw [← h]
  | cons e l ih =>
    have hstep : fireStep lat tm st (e :: l) =
        fireStep lat tm (triggerVisualEvent e lat (playEventAt e tm st)) l := rfl
    rw [hstep, playEventAt_eq, ih]
    cases h : st.audioCtx <;> simp [triggerVisualEvent, h]

theorem tickStep_nextStepTime (now : ℚ) (st : AppState) :
    (tickStep now st).nextStepTime =
      st.nextStepTime + (60 / st.tempo) / (CONFIG.SUBDIV : ℚ) := by
  simp only [tickStep, fireStep_eq]
  split <;> rfl

theorem tickStep_currentStep (now : ℚ) (st : AppState) :
    (tickStep now st).currentStep = (st.currentStep + 1) % st.steps := by
  simp only [tickStep, fireStep_eq]
  split <;> rfl

theorem tickStep_loopStartTime (now : ℚ) (st : AppState) :
    (tickStep now st).loopStartTime =
      if (st.currentStep + 1) % st.steps = 0 then
        st.nextStepTime + (60 / st.tempo) / (CONFIG.SUBDIV : ℚ)
      else st.loopStartTime := by
  simp only [tickStep, fireStep_eq]
  split <;> simp_all

theorem tickStep_dispatched (now : ℚ) (st : AppState) (g : AudioGraph)
    (hg : st.audioCtx = some g) :
    (tickStep now st).dispatched = st.dispatched ++
      (st.events.filter fun e => e.step == st.currentStep).map
        (fun e => mkNote st.isDelayOn st.isReverbOn e st.nextStepTime) := by
  simp only [tickStep, fireStep_eq, hg]
  split <;> rfl

theorem tickStep_visuals (now : ℚ) (st : AppState) :
    (tickStep now st).visuals = st.visuals ++
      (st.events.filter fun e => e.step == st.currentStep).map
        (fun e => (e, st.nextStepTime - now)) := by
  simp only [tickStep, fireStep_eq]
  split <;> rfl

theorem tickStep_events (now : ℚ) (st : AppState) :
    (tickStep now st).events = st.events := by
  simp only [tickStep, fireStep_eq]
  split <;> rfl

theorem tickStep_steps (now : ℚ) (st : AppState) :
    (tickStep now st).steps = st.steps := by
  simp only [tickStep, fireStep_eq]
  split <;> rfl

theorem tickStep_audioCtx (now : ℚ) (st : AppState) :
    (tickStep now st).audioCtx = st.audioCtx := by
  simp only [tickStep, fireStep_eq]
  split <;> rfl

theorem schedulerLoopAux_events (now : ℚ) (fuel : ℕ) (st : AppState) :
    (schedulerLoopAux now fuel st).events = st.events := by
  induction fuel generalizing st with
  | zero => rfl
  | succ fuel ih =>
    simp only [schedulerLoopAux]
    split
    · rw [ih, tickStep_events]
    · rfl

theorem schedulerLoopAux_steps (now : ℚ) (fuel : ℕ) (st : AppState) :
    (schedulerLoopAux now fuel st).steps = st.steps := by
  induction fuel generalizing st with
  | zero => rfl
  | succ fuel ih =>
    simp only [schedulerLoopAux]
    split
    · rw [ih, tickStep_steps]
    · rfl

theorem ensureAudio_events (jsPow : ℚ → ℚ → ℚ) (noise : ℕ → ℕ → ℚ)
    (rate : ℕ) (st : AppState) :
    ( ensureAudio jsPow noise rate st).events = st.events := by
  cases h : st.audioCtx <;> simp [ ensureAudio, h]

theorem ensureAudio_steps (jsPow : ℚ → ℚ → ℚ) (noise : ℕ → ℕ → ℚ)
    (rate : ℕ) (st : AppState) :
    ( ensureAudio jsPow noise rate st).steps = st.steps := by
  cases h : st.audioCtx <;> simp [ ensureAudio, h]

theorem ensureAudio_currentStep (jsPow : ℚ → ℚ → ℚ) (noise : ℕ → ℕ → ℚ)
    (rate : ℕ) (st : AppState) :
    ( ensureAudio jsPow noise rate st).currentStep = st.currentStep := by
  cases h : st.audioCtx <;> simp [ ensureAudio, h]

theorem ensureAudio_isSome (jsPow : ℚ → ℚ → ℚ) (noise : ℕ → ℕ → ℚ)
    (rate : ℕ) (st : AppState) :
    ( ensureAudio jsPow noise rate st).audioCtx.isSome = true := by
  cases h : st.audioCtx <;> simp [ ensureAudio, h]

/-- Every element of `updateFirst p f l` is an element of `l` or the
image under `f` of an element of `l`. -/
theorem mem_updateFirst (p : Event → Bool) (f : Event → Event)
    (l : List Event) (x : Event) (hx : x ∈ updateFirst p f l) :
    x ∈ l ∨ ∃ e ∈ l, x = f e := by
  induction l with
  | nil => simp [updateFirst] at hx
  | cons e es ih =>
    simp only [updateFirst] at hx
    split at hx
    · rcases List.mem_cons.mp hx with h | h
      · exact Or.inr ⟨e, List.mem_cons_self e es, h⟩
      · exact Or.inl (List.mem_cons_of_mem e h)
    · rcases List.mem_cons.mp hx with h | h
      · exact Or.inl (h ▸ List.mem_cons_self e es)
      · rcases ih h with h2 | ⟨e2, he2, hxe2⟩
        · exact Or.inl (List.mem_cons_of_mem e h2)
        · exact Or.inr ⟨e2, List.mem_cons_of_mem e he2, hxe2⟩

/-- `updateFirst` relates elementwise to the original list: each
position holds either the original event or its image under `f`. -/
theorem forall₂_updateFirst (R : Event → Event → Prop)
    (p : Event → Bool) (f : Event → Event) (l : List Event)
    (hrefl : ∀ e, R e e) (hf : ∀ e, R e (f e)) :
    List.Forall₂ R l (updateFirst p f l) := by
  induction l with
  | nil => exact List.Forall₂.nil
  | cons e es ih =>
    simp only [updateFirst]
    split
    · exact List.Forall₂.cons (hf e) (List.forall₂_same.mpr fun x _ => hrefl x)
    · exact List.Forall₂.cons (hrefl e) ih

theorem playEventAt_events (ev : Event) (t : ℚ) (st : AppState) :
    (playEventAt ev t st).events = st.events := by
  rw [playEventAt_eq]

theorem updateFirst_length (p : Event → Bool) (f : Event → Event)
    (l : List Event) : (updateFirst p f l).length = l.length := by
  induction l with
  | nil => rfl
  | cons e es ih =>
    simp only [updateFirst]
    split <;> simp [ih]

/-- The event literal `placeEventAt` appends (nothing about it depends
on `nx` or on `loopStartTime`). -/
theorem placeEventAt_events_eq (jsPow : ℚ → ℚ → ℚ) (noise : ℕ → ℕ → ℚ)
    (rate : ℕ) (now : ℚ) (rid : String) (cidx : ℕ) (nx ny : ℚ)
    (st : AppState) :
    (placeEventAt jsPow noise rate now rid cidx nx ny st).events =
      st.events ++
        [{ id := "e" ++ rid
           step := (st.currentStep + 1) % st.steps
           freq := midiToFreq jsPow (48 + jsRound ((1 - ny) * 24))
           baseFreq := midiToFreq jsPow (48 + jsRound ((1 - ny) * 24))
           gain := 0.6
           duration := 0.18
           color := (CONFIG.PALETTE.get? (cidx % CONFIG.PALETTE.length)).getD ""
           type := "sine" }] := by
  simp [placeEventAt, triggerVisualEvent, playEventAt_events,
    ensureAudio_events, ensureAudio_currentStep, ensureAudio_steps]

theorem placeEventAt_steps (jsPow : ℚ → ℚ → ℚ) (noise : ℕ → ℕ → ℚ)
    (rate : ℕ) (now : ℚ) (rid : String) (cidx : ℕ) (nx ny : ℚ)
    (st : AppState) :
    (placeEventAt jsPow noise rate now rid cidx nx ny st).steps = st.steps := by
  simp [placeEventAt, triggerVisualEvent, playEventAt_eq, ensureAudio_steps]

/-! ## Claims -/

/-- C3: calling `start()` while the transport is already Running is a
no-op — the whole transport state (`currentStep`, `nextStepTime`,
`loopStartTime`, and the timer itself) is unchanged — and starting twice
never yields a second polling loop: the double `start()` equals the
single one, so no step is ever dispatched twice by duplicate timers. -/
theorem start_idempotent_when_running
    (jsPow jsPow2 : ℚ → ℚ → ℚ) (noise noise2 : ℕ → ℕ → ℚ)
    (rate rate2 : ℕ) (clock clock2 : ℚ) (st : AppState)
    (h : st.schedulerTimer = true) :
    startScheduler jsPow noise rate clock st = st ∧
    startScheduler jsPow2 noise2 rate2 clock2
        (startScheduler jsPow noise rate clock st) =
      startScheduler jsPow noise rate clock st := by
  have h1 : startScheduler jsPow noise rate clock st = st := by
    simp [startScheduler, h]
  refine ⟨h1, ?_⟩
  rw [h1]
  simp [startScheduler, h]

/-- C3 witness: a concrete running state, with the hypothesis decided
and the no-op evaluated. -/
theorem start_idempotent_when_running_witness :
    stRun.schedulerTimer = true ∧
    startScheduler pw1 ns1 0 5 stRun = stRun :=
  ⟨rfl, (start_idempotent_when_running pw1 pw1 ns1 ns1 0 0 5 5 stRun rfl).1⟩

/-- C4: `stop()` followed by `start()` restarts the loop from the
beginning: whatever state `stop()` left behind, `start()` sets
`currentStep = 0`, `loopStartTime = audioClockNow + 0.1` and
`nextStepTime = loopStartTime`, and the polling loop is active —
resuming mid-loop never occurs. -/
theorem stop_start_restarts_from_step_zero
    (jsPow : ℚ → ℚ → ℚ) (noise : ℕ → ℕ → ℚ) (rate : ℕ) (clock : ℚ)
    (st : AppState) :
    (startScheduler jsPow noise rate clock (stopScheduler st)).currentStep = 0 ∧
    (startScheduler jsPow noise rate clock (stopScheduler st)).loopStartTime = clock + 0.1 ∧
    (startScheduler jsPow noise rate clock (stopScheduler st)).nextStepTime = clock + 0.1 ∧
    (startScheduler jsPow noise rate clock (stopScheduler st)).schedulerTimer = true := by
  have hstop : (stopScheduler st).schedulerTimer = false := by
    by_cases h : st.schedulerTimer <;> simp [stopScheduler, h]
  refine ⟨?_, ?_, ?_, ?_⟩ <;> simp [startScheduler, hstop]

/-- C6: the routing decision into the delay and reverb sends is latched
at dispatch time — the committed note records exactly the flags current
at the `play` call, toggling afterwards rewrites no already-dispatched
note, and `setDelay`/`setReverb` only flip their boolean (plus the
button label): the effect node graph (`audioCtx`) is not rebuilt. -/
theorem routing_latched_at_dispatch (ev : Event) (t : ℚ) (b : Bool)
    (st : AppState) :
    (playEventAt ev t st).dispatched =
      st.dispatched ++
        (match st.audioCtx with
         | some _ => [mkNote st.isDelayOn st.isReverbOn ev t]
         | none => []) ∧
    (mkNote st.isDelayOn st.isReverbOn ev t).routeDelay = st.isDelayOn ∧
    (mkNote st.isDelayOn st.isReverbOn ev t).routeReverb = st.isReverbOn ∧
    (setDelay b st).dispatched = st.dispatched ∧
    (setDelay b st).isDelayOn = b ∧
    (setDelay b st).audioCtx = st.audioCtx ∧
    (setDelay b st).events = st.events ∧
    (setDelay b st).isReverbOn = st.isReverbOn ∧
    (setReverb b st).dispatched = st.dispatched ∧
    (setReverb b st).isReverbOn = b ∧
    (setReverb b st).audioCtx = st.audioCtx ∧
    (setReverb b st).events = st.events ∧
    (setReverb b st).isDelayOn = st.isDelayOn := by
  refine ⟨?_, rfl, rfl, rfl, rfl, rfl, rfl, rfl, rfl, rfl, rfl, rfl, rfl⟩
  rw [playEventAt_eq]

/-- C7: the export snapshot is `{tempo, steps, events}` with the event
count preserved, each exported event reduced to exactly
`step, freq, gain, duration, color, type` (the `ExportEvent` record has
no `id`/`baseFreq` field, and the snapshot is unchanged if every
internal `id`/`baseFreq` is scrubbed first); `exportPattern` reads the
pattern without mutating it (it is a pure function of the state). -/
theorem export_snapshot_spec (st : AppState) :
    (exportPattern st).events.length = st.events.length ∧
    (exportPattern st).tempo = st.tempo ∧
    (exportPattern st).steps = st.steps ∧
    exportPattern
        { st with events := st.events.map fun e => { e with id := "", baseFreq := 0 } } =
      exportPattern st ∧
    List.Forall₂
      (fun (e : Event) (x : ExportEvent) =>
        x.step = e.step ∧ x.freq = e.freq ∧ x.gain = e.gain ∧
        x.duration = e.duration ∧ x.color = e.color ∧ x.type = e.type)
      st.events (exportPattern st).events := by
  refine ⟨by simp [exportPattern], rfl, rfl, ?_, ?_⟩
  · simp only [exportPattern, List.map_map]
    rfl
  · simp only [exportPattern]
    rw [List.forall₂_map_right_iff]
    exact List.forall₂_same.mpr fun e _ => ⟨rfl, rfl, rfl, rfl, rfl, rfl⟩

/-- C10: `placeEventAt` puts the new event on step
`(currentStep + 1) % steps`, ignoring both the horizontal pointer
coordinate and the loop-position quantization computed from
`loopStartTime` (the placed event is identical for any `nx` and any
`loopStartTime`); the vertical coordinate alone fixes the pitch via
`midiToFreq(48 + round((1-ny)*24))`, and the new event has gain 0.6. -/
theorem place_uses_next_step_and_pointer_y
    (jsPow : ℚ → ℚ → ℚ) (noise : ℕ → ℕ → ℚ) (rate : ℕ)
    (now : ℚ) (rid : String) (cidx : ℕ) (nx nx2 ny : ℚ) (st : AppState) :
    ∃ ev : Event,
      (placeEventAt jsPow noise rate now rid cidx nx ny st).events =
        st.events ++ [ev] ∧
      ev.step = (st.currentStep + 1) % st.steps ∧
      ev.freq = midiToFreq jsPow (48 + jsRound ((1 - ny) * 24)) ∧
      ev.baseFreq = midiToFreq jsPow (48 + jsRound ((1 - ny) * 24)) ∧
      ev.gain = 0.6 ∧
      (placeEventAt jsPow noise rate now rid cidx nx2 ny st).events =
        st.events ++ [ev] ∧
      ∀ lst : ℚ,
        (placeEventAt jsPow noise rate now rid cidx nx ny
            { st with loopStartTime := lst }).events = st.events ++ [ev] := by
  refine ⟨{ id := "e" ++ rid
            step := (st.currentStep + 1) % st.steps
            freq := midiToFreq jsPow (48 + jsRound ((1 - ny) * 24))
            baseFreq := midiToFreq jsPow (48 + jsRound ((1 - ny) * 24))
            gain := 0.6
            duration := 0.18
            color := (CONFIG.PALETTE.get? (cidx % CONFIG.PALETTE.length)).getD ""
            type := "sine" }, ?_, rfl, rfl, rfl, rfl, ?_, ?_⟩
  · simp [placeEventAt, triggerVisualEvent, playEventAt_events,
      ensureAudio_events, ensureAudio_currentStep, ensureAudio_steps]
  · simp [placeEventAt, triggerVisualEvent, playEventAt_events,
      ensureAudio_events, ensureAudio_currentStep, ensureAudio_steps]
  · intro lst
    simp [placeEventAt, triggerVisualEvent, playEventAt_events,
      ensureAudio_events, ensureAudio_currentStep, ensureAudio_steps]

/-- C1: a scheduler tick with the engine initialized runs the lookahead
while-loop: while `nextStepTime < now + LOOKAHEAD`, it dispatches every
pattern event whose step equals `currentStep` via
`play(event, nextStepTime)`, notifies the visual sink with latency
`nextStepTime - now`, advances `nextStepTime` by
`(60/tempo)/SUBDIV`, sets `currentStep := (currentStep + 1) % steps`,
and refreshes `loopStartTime` to the new `nextStepTime` exactly when
`currentStep` wraps to 0. -/
theorem scheduler_tick_spec (now : ℚ) (fuel : ℕ) (st : AppState)
    (g : AudioGraph) (hg : st.audioCtx = some g) :
    schedulerLoop now fuel st = Except.ok (schedulerLoopAux now fuel st) ∧
    (st.nextStepTime < now + CONFIG.LOOKAHEAD →
      schedulerLoopAux now (fuel + 1) st =
        schedulerLoopAux now fuel (tickStep now st)) ∧
    (¬ st.nextStepTime < now + CONFIG.LOOKAHEAD →
      schedulerLoopAux now (fuel + 1) st = st) ∧
    (tickStep now st).dispatched = st.dispatched ++
      (st.events.filter fun e => e.step == st.currentStep).map
        (fun e => mkNote st.isDelayOn st.isReverbOn e st.nextStepTime) ∧
    (tickStep now st).visuals = st.visuals ++
      (st.events.filter fun e => e.step == st.currentStep).map
        (fun e => (e, st.nextStepTime - now)) ∧
    (tickStep now st).nextStepTime =
      st.nextStepTime + (60 / st.tempo) / (CONFIG.SUBDIV : ℚ) ∧
    (tickStep now st).currentStep = (st.currentStep + 1) % st.steps ∧
    ((tickStep now st).currentStep = 0 →
      (tickStep now st).loopStartTime = (tickStep now st).nextStepTime) ∧
    ((tickStep now st).currentStep ≠ 0 →
      (tickStep now st).loopStartTime = st.loopStartTime) := by
  refine ⟨by simp [schedulerLoop, hg], ?_, ?_,
    tickStep_dispatched now st g hg, tickStep_visuals now st,
    tickStep_nextStepTime now st, tickStep_currentStep now st, ?_, ?_⟩
  · intro h
    simp [schedulerLoopAux, h]
  · intro h
    simp [schedulerLoopAux, h]
  · intro h
    rw [tickStep_currentStep] at h
    rw [tickStep_loopStartTime, tickStep_nextStepTime]
    simp [h]
  · intro h
    rw [tickStep_currentStep] at h
    rw [tickStep_loopStartTime]
    simp [h]

/-- C1 witness: one concrete iteration on a running state with one
event on the current step, evaluated to literals. -/
theorem scheduler_tick_spec_witness :
    stRun.audioCtx = some graph0 ∧
    (tickStep 0 stRun).nextStepTime = 7/40 ∧
    (tickStep 0 stRun).currentStep = 1 ∧
    (tickStep 0 stRun).dispatched = [mkNote false false evA (1/20)] ∧
    (tickStep 0 stRun).loopStartTime = stRun.loopStartTime := by
  have h := scheduler_tick_spec 0 3 stRun graph0 rfl
  refine ⟨rfl, ?_, ?_, ?_, ?_⟩
  · rw [h.2.2.2.2.2.1]
    norm_num [stRun, st0, CONFIG.SUBDIV, CONFIG.DEFAULT_TEMPO]
  · rw [h.2.2.2.2.2.2.1]; decide
  · rw [h.2.2.2.1]; rfl
  · refine h.2.2.2.2.2.2.2.2 ?_
    rw [h.2.2.2.2.2.2.1]; decide

/-- C2: the per-step increment applied when a tick advances
`nextStepTime` is exactly `60/T/SUBDIV` seconds for the tempo `T`
current at that moment; `setTempo` moves no already-dispatched note and
no pending step boundary, and a tick after the change uses the new
tempo for its increment. -/
theorem tempo_delta_spec (now : ℚ) (T : ℤ) (st : AppState)
    (hT : 0 < st.tempo) :
    (tickStep now st).nextStepTime - st.nextStepTime =
      60 / st.tempo / (CONFIG.SUBDIV : ℚ) ∧
    (setTempo T st).dispatched = st.dispatched ∧
    (setTempo T st).nextStepTime = st.nextStepTime ∧
    (setTempo T st).tempo = (T : ℚ) ∧
    (tickStep now (setTempo T st)).nextStepTime =
      st.nextStepTime + 60 / (T : ℚ) / (CONFIG.SUBDIV : ℚ) := by
  refine ⟨?_, rfl, rfl, rfl, ?_⟩
  · rw [tickStep_nextStepTime]
    exact add_sub_cancel_left _ _
  · rw [tickStep_nextStepTime]
    rfl

/-- C2 witness: at tempo 120 the increment is 0.125 s. -/
theorem tempo_delta_spec_witness :
    (0 : ℚ) < stRun.tempo ∧
    (tickStep 0 stRun).nextStepTime - stRun.nextStepTime =
      60 / stRun.tempo / (CONFIG.SUBDIV : ℚ) :=
  ⟨by norm_num [stRun, st0],
   (tempo_delta_spec 0 90 stRun (by norm_num [stRun, st0])).1⟩

/-- C5 counterexample: with the engine uninitialized, `schedulerLoop`
is not a no-op that cannot fail — it dereferences the null audio
context and throws a TypeError before doing anything else. -/
theorem tick_on_null_engine_throws :
    st0.audioCtx = none ∧
    schedulerLoop 0 1 st0 = Except.error JsError.typeError :=
  ⟨rfl, rfl⟩

/-- C5 (amended): `play(event, atTime)` without an initialized engine
is a no-op and never throws, but a scheduler tick without the engine
throws a TypeError reading the null audio clock (it has no guard); the
transport compensates: `startScheduler` initializes the engine before
the polling loop exists, so a tick never runs uninitialized. -/
theorem uninitialized_engine_behavior
    (ev : Event) (t now : ℚ) (fuel : ℕ) (jsPow : ℚ → ℚ → ℚ)
    (noise : ℕ → ℕ → ℚ) (rate : ℕ) (clock : ℚ) (st : AppState)
    (h : st.audioCtx = none) :
    playEventAt ev t st = st ∧
    schedulerLoop now fuel st = Except.error JsError.typeError ∧
    (st.schedulerTimer = false →
      (startScheduler jsPow noise rate clock st).audioCtx.isSome = true ∧
      (startScheduler jsPow noise rate clock st).schedulerTimer = true) := by
  refine ⟨by simp [playEventAt, h], by simp [schedulerLoop, h], ?_⟩
  intro ht
  constructor
  · simp [startScheduler, ht, ensureAudio_isSome]
  · simp [startScheduler, ht]

/-- C5 witness: the fresh page-load state. -/
theorem uninitialized_engine_behavior_witness :
    st0.audioCtx = none ∧ playEventAt evA 1 st0 = st0 :=
  ⟨rfl, (uninitialized_engine_behavior evA 1 0 1 pw1 ns1 0 5 st0 rfl).1⟩

/-- C8: with the engine initialized, `play(event, atTime)` commits a
note whose amplitude envelope starts at the 0.0001 floor at `atTime`,
exponentially ramps to `event.gain` by `atTime + 0.01` (10 ms attack),
exponentially ramps back to the floor by `atTime + event.duration`, and
whose oscillator stops at `atTime + event.duration + 0.02` (for events
with nonzero gain and duration, where the `||` defaults are inert). -/
theorem envelope_spec (ev : Event) (t : ℚ) (st : AppState)
    (g : AudioGraph) (hg : st.audioCtx = some g)
    (hgain : ev.gain ≠ 0) (hdur : ev.duration ≠ 0) :
    (playEventAt ev t st).dispatched =
      st.dispatched ++ [mkNote st.isDelayOn st.isReverbOn ev t] ∧
    (mkNote st.isDelayOn st.isReverbOn ev t).envelope =
      [EnvCmd.setValue 0.0001 t,
       EnvCmd.expRamp ev.gain (t + 0.01),
       EnvCmd.expRamp 0.0001 (t + ev.duration)] ∧
    (mkNote st.isDelayOn st.isReverbOn ev t).oscStart = t ∧
    (mkNote st.isDelayOn st.isReverbOn ev t).oscStop =
      t + ev.duration + 0.02 := by
  refine ⟨by simp [playEventAt_eq, hg], ?_, rfl, ?_⟩
  · simp [mkNote, hgain, hdur]
  · simp [mkNote, hdur]

/-- C8 witness: a concrete note at `atTime = 1`. -/
theorem envelope_spec_witness :
    stRun.audioCtx = some graph0 ∧ evA.gain ≠ 0 ∧ evA.duration ≠ 0 ∧
    (mkNote stRun.isDelayOn stRun.isReverbOn evA 1).oscStop =
      1 + evA.duration + 0.02 := by
  have h := envelope_spec evA 1 stRun graph0 rfl (by norm_num [evA])
    (by norm_num [evA])
  exact ⟨rfl, by norm_num [evA], by norm_num [evA], h.2.2.2⟩

/-- C9: across every operation reachable from the UI, every existing
event survives with its `id`, `step`, `baseFreq`, `duration`, `color`
and `type` unchanged (dragging mutates only `freq`/`gain`), `steps` is
never changed, and every event's `step` stays within `[0, steps)`. -/
theorem events_keep_step_and_id (jsPow : ℚ → ℚ → ℚ) (noise : ℕ → ℕ → ℚ)
    (rate : ℕ) (op : Op) (st : AppState)
    (h0 : 0 < st.steps)
    (hinv : ∀ e ∈ st.events, e.step < st.steps) :
    (applyOp jsPow noise rate op st).steps = st.steps ∧
    (∀ e ∈ (applyOp jsPow noise rate op st).events, e.step < st.steps) ∧
    List.Forall₂ persists st.events
      ((applyOp jsPow noise rate op st).events.take st.events.length) := by
  have hrefl : ∀ e, persists e e := fun _ => ⟨rfl, rfl, rfl, rfl, rfl, rfl⟩
  have hgen : ∀ st2 : AppState, st2.events = st.events →
      st2.steps = st.steps →
      (st2.steps = st.steps ∧ (∀ e ∈ st2.events, e.step < st.steps) ∧
        List.Forall₂ persists st.events
          (st2.events.take st.events.length)) := by
    intro st2 he hs
    refine ⟨hs, by rw [he]; exact hinv, ?_⟩
    rw [he, List.take_length]
    exact List.forall₂_same.mpr fun x _ => hrefl x
  cases op with
  | place now rid cidx nx ny =>
    have he := placeEventAt_events_eq jsPow noise rate now rid cidx nx ny st
    refine ⟨placeEventAt_steps jsPow noise rate now rid cidx nx ny st, ?_, ?_⟩
    · intro e hmem
      rw [show (applyOp jsPow noise rate (Op.place now rid cidx nx ny) st).events =
          (placeEventAt jsPow noise rate now rid cidx nx ny st).events from rfl, he] at hmem
      rcases List.mem_append.mp hmem with h | h
      · exact hinv e h
      · rw [List.mem_singleton.mp h]
        exact Nat.mod_lt _ h0
    · rw [show (applyOp jsPow noise rate (Op.place now rid cidx nx ny) st).events =
          (placeEventAt jsPow noise rate now rid cidx nx ny st).events from rfl, he,
        List.take_left]
      exact List.forall₂_same.mpr fun x _ => hrefl x
  | move nx ny =>
    cases hd : st.draggingId with
    | none =>
      have he : (applyOp jsPow noise rate (Op.move nx ny) st).events = st.events := by
        simp [applyOp, onPointerMove, hd]
      have hs : (applyOp jsPow noise rate (Op.move nx ny) st).steps = st.steps := by
        simp [applyOp, onPointerMove, hd]
      exact hgen _ he hs
    | some did =>
      by_cases hp : st.pointerDown
      · have he : (applyOp jsPow noise rate (Op.move nx ny) st).events =
            updateFirst (fun x => x.id == did)
              (fun ev => { ev with
                  gain := 0.2 + (1 - clamp01 ny) * 0.8
                  freq := ev.baseFreq * jsPow 2 ((clamp01 nx - 0.5) * 2) })
              st.events := by
          simp [applyOp, onPointerMove, hd, hp]
        have hs : (applyOp jsPow noise rate (Op.move nx ny) st).steps = st.steps := by
          simp [applyOp, onPointerMove, hd, hp]
        refine ⟨hs, ?_, ?_⟩
        · intro e hmem
          rw [he] at hmem
          rcases mem_updateFirst _ _ _ _ hmem with h | ⟨e0, he0, hfe⟩
          · exact hinv e h
          · rw [hfe]
            exact hinv e0 he0
        · have hlen := updateFirst_length (fun x => x.id == did)
            (fun ev => { ev with
                gain := 0.2 + (1 - clamp01 ny) * 0.8
                freq := ev.baseFreq * jsPow 2 ((clamp01 nx - 0.5) * 2) })
            st.events
          rw [he, ← hlen, List.take_length]
          exact forall₂_updateFirst persists _ _ st.events hrefl
            (fun e => ⟨rfl, rfl, rfl, rfl, rfl, rfl⟩)
      · have he : (applyOp jsPow noise rate (Op.move nx ny) st).events = st.events := by
          simp [applyOp, onPointerMove, hd, hp]
        have hs : (applyOp jsPow noise rate (Op.move nx ny) st).steps = st.steps := by
          simp [applyOp, onPointerMove, hd, hp]
        exact hgen _ he hs
  | dragPick target down => exact hgen _ rfl rfl
  | pointerUp => exact hgen _ rfl rfl
  | tempoChange T => exact hgen _ rfl rfl
  | delaySet b => exact hgen _ rfl rfl
  | reverbSet b => exact hgen _ rfl rfl
  | start clock =>
    by_cases ht : st.schedulerTimer
    · exact hgen _ (by simp [applyOp, startScheduler, ht]) (by simp [applyOp, startScheduler, ht])
    · exact hgen _ (by simp [applyOp, startScheduler, ht, ensureAudio_events])
        (by simp [applyOp, startScheduler, ht, ensureAudio_steps])
  | stop =>
    by_cases ht : st.schedulerTimer
    · exact hgen _ (by simp [applyOp, stopScheduler, ht]) (by simp [applyOp, stopScheduler, ht])
    · exact hgen _ (by simp [applyOp, stopScheduler, ht]) (by simp [applyOp, stopScheduler, ht])
  | tick now fuel =>
    cases hg : st.audioCtx with
    | none =>
      exact hgen _ (by simp [applyOp, schedulerLoop, hg]) (by simp [applyOp, schedulerLoop, hg])
    | some g =>
      exact hgen _
        (by simp [applyOp, schedulerLoop, hg, schedulerLoopAux_events])
        (by simp [applyOp, schedulerLoop, hg, schedulerLoopAux_steps])

/-- C9 witness: a drag-move on the concrete running state. -/
theorem events_keep_step_and_id_witness :
    0 < stRun.steps ∧ (∀ e ∈ stRun.events, e.step < stRun.steps) ∧
    (applyOp pw1 ns1 0 (Op.move 0.5 0.5) stRun).steps = stRun.steps := by
  have h := events_keep_step_and_id pw1 ns1 0 (Op.move 0.5 0.5) stRun
    (by decide) (by decide)
  exact ⟨by decide, by decide, h.1⟩

end Musicy
